import Mathlib

/-!
Verification of the ACIS entity loader (`src/ezdxf/_acis/entities.py`).

The module loads SAT (text) or SAB (binary) record streams into a graph of
`AcisEntity` nodes, memoized per record identity (Python `id()` of the raw
record object).  We embed the loader shallowly:

* the Python object heap of loaded nodes is an insertion-ordered association
  list `Entities := List (Nat × AcisEntity)` keyed by the record identity
  (a node reference is its key; memoization makes keys unique);
* the process-wide registry `ENTITY_TYPES` is an association list from type
  names to entity classes, `register` overwrites in place like a dict store;
* raw records (`sab.SabEntity` / `sat.SatEntity`) become `RawRecord`s with
  their Python identity `uid`, numeric stream id `num_id`, type `name`, the
  attribute pointer (`none` iff `is_null_ptr`) and opaque field data;
* the parsers `sab.parse_sab` / `sat.parse_sat` and the field-consuming
  `parse` methods of entity subtypes are not part of the sources here and are
  modelled from the spec (see `SabData`, `SatData`, `ParseSpec`).
-/

/-- A dictionary as an insertion-ordered association list with unique keys,
mirroring a Python `dict`. Lookup by key. -/
def dictLookup {κ α : Type} [DecidableEq κ] : List (κ × α) → κ → Option α
  | [], _ => none
  | (k, v) :: rest, k' => if k' = k then some v else dictLookup rest k'

/-- Python `d[k] = v`: overwrite in place when the key exists (keeping its
position, as CPython dicts do), otherwise append at the end. -/
def dictSet {κ α : Type} [DecidableEq κ] (m : List (κ × α)) (k : κ) (v : α) :
    List (κ × α) :=
  if (dictLookup m k).isSome then
    m.map (fun p => if p.1 = k then (k, v) else p)
  else
    m ++ [(k, v)]

/-- Mutate the object stored under key `k` (Python attribute assignment on the
object referenced from the dict). -/
def dictModify {κ α : Type} [DecidableEq κ] (m : List (κ × α)) (k : κ)
    (f : α → α) : List (κ × α) :=
  m.map (fun p => if p.1 = k then (p.1, f p.2) else p)

/-- A registered entity class: its class attribute `type` and whether it is
(a subclass of) `Body` — the runtime-type test `isinstance(e, Body)`. -/
structure EntityClass where
  type : String
  isBody : Bool
deriving DecidableEq, Repr

/-- The base class `AcisEntity` used as the fallback constructor:
`type = "unsupported-entity"` and not a `Body`. -/
def AcisEntityClass : EntityClass := ⟨"unsupported-entity", false⟩

/-- The registered class `Body`. -/
def BodyClass : EntityClass := ⟨"body", true⟩

/-- The process-wide registry type: type name → entity class. -/
abbrev Registry : Type := List (String × EntityClass)

/-- `register(cls)`: stores `cls` under `cls.type`, overwriting any previous
entry for that name (`ENTITY_TYPES[cls.type] = cls`). -/
def register (reg : Registry) (cls : EntityClass) : Registry :=
  dictSet reg cls.type cls

/-- The module-level `ENTITY_TYPES` dict after import: only `Body` is
registered by the `@register` decorator in this source file. -/
def ENTITY_TYPES : Registry := register [] BodyClass

/-- A loaded node (an `AcisEntity` instance).  `type`/`isBody` come from the
constructing class; `id` is unset (`none`) until the node's own record is
processed — Python declares `id: int` without a default, so reading it before
assignment raises `AttributeError`; `attributes` defaults to `None` and, when
set, holds a reference (the key of the referenced node in the heap). -/
structure AcisEntity where
  type : String
  isBody : Bool
  id : Option Int
  attributes : Option Nat
deriving DecidableEq, Repr

/-- A freshly constructed instance of class `cls`. -/
def mkEntity (cls : EntityClass) : AcisEntity :=
  { type := cls.type, isBody := cls.isBody, id := none, attributes := none }

/-- The loader's `self.entities` dict: record identity → node. -/
abbrev Entities : Type := List (Nat × AcisEntity)

/-- A raw record of the parsed stream (`sab.SabEntity` / `sat.SatEntity`):
`uid` is the Python object identity `id(record)` (unique per record), `num_id`
the numeric id from the stream, `name` the type name, `attr` the attribute
pointer — `none` iff `is_null_ptr`, otherwise the referenced record's identity
and name — and `data` the opaque field tokens. -/
structure RawRecord where
  uid : Nat
  num_id : Int
  name : String
  attr : Option (Nat × String)
  data : List Nat
deriving DecidableEq, Repr

/-- Errors surfaced by the loader: the `TypeError` of `load` on an input that
is neither bytes nor text, and the `FormatError` of the field parsers. -/
inductive LoadError where
  | typeError : String → LoadError
  | formatError : String → LoadError
deriving DecidableEq, Repr

/-- `Loader.get_entity(uid, entity_type)`: return the cached node for `uid`,
or construct one via the registry (falling back to the base class for an
unregistered name), cache it and return it.  The returned node reference is
its heap key. -/
def get_entity (ents : Entities) (uid : Nat) (entity_type : String) :
    Entities × Nat :=
  match dictLookup ents uid with
  | some _ => (ents, uid)
  | none =>
      let cls := (dictLookup ENTITY_TYPES entity_type).getD AcisEntityClass
      (ents ++ [(uid, mkEntity cls)], uid)

/-- `Loader.bodies()`: the nodes whose runtime type is `Body`, in the
insertion order of `self.entities`. -/
def bodies (ents : Entities) : List AcisEntity :=
  (ents.map Prod.snd).filter (fun e => e.isBody)

/-- Modelled from the spec: the field-consuming `parse` methods of registered
entity subtypes are not in the sources here (only `Body`, whose `parse` is a
no-op, is).  Per the spec a subtype's `parse` consumes the record's field
data, resolving embedded entity references through the factory (`get_entity`)
and raising a `FormatError` on a truncated or kind-mismatched field stream.
`refs r` lists the `(identity, name)` pairs the parse of record `r` resolves;
`fails r` is `some msg` when its field stream is malformed. -/
structure ParseSpec where
  refs : RawRecord → List (Nat × String)
  fails : RawRecord → Option String

/-- The `parse` behaviour actually present in these sources: `AcisEntity.parse`
and `Body.parse` do nothing and never fail. -/
def trivialParse : ParseSpec := ⟨fun _ => [], fun _ => none⟩

/-- `entity.parse(args, entity_factory)` on record `r`: resolve the references
`ps.refs r` through `get_entity`, and fail with a `FormatError` when the field
stream is malformed. -/
def parseRecord (ps : ParseSpec) (ents : Entities) (r : RawRecord) :
    Except LoadError Entities :=
  let ents := (ps.refs r).foldl (fun es p => (get_entity es p.1 p.2).1) ents
  match ps.fails r with
  | some msg => .error (.formatError msg)
  | none => .ok ents

/-- One iteration of `SabLoader.load_entities`: get-or-create the node for the
record, assign its numeric id, and — when the attribute pointer is not the
null pointer — attach as `attributes` the node returned by the factory called
with `id(sab_entity), sab_entity.name` (exactly as the source does), then
parse the field data. -/
def sab_process_record (ps : ParseSpec) (ents : Entities) (r : RawRecord) :
    Except LoadError Entities :=
  let res := get_entity ents r.uid r.name
  let ents := res.1
  let euid := res.2
  let ents := dictModify ents euid (fun e => { e with id := some r.num_id })
  let ents :=
    match r.attr with
    | none => ents
    | some _ =>
        let res2 := get_entity ents r.uid r.name
        dictModify res2.1 euid (fun e => { e with attributes := some res2.2 })
  parseRecord ps ents r

/-- `SabLoader.load_entities`: process the records in stream order,
propagating any parse error. -/
def sab_load_entities (ps : ParseSpec) : List RawRecord → Entities →
    Except LoadError Entities
  | [], ents => .ok ents
  | r :: rs, ents =>
      match sab_process_record ps ents r with
      | .error e => .error e
      | .ok ents' => sab_load_entities ps rs ents'

/-- One iteration of `SatLoader.load_entities`; textually identical to the SAB
iteration (the source duplicates the loop body for SAT records). -/
def sat_process_record (ps : ParseSpec) (ents : Entities) (r : RawRecord) :
    Except LoadError Entities :=
  let res := get_entity ents r.uid r.name
  let ents := res.1
  let euid := res.2
  let ents := dictModify ents euid (fun e => { e with id := some r.num_id })
  let ents :=
    match r.attr with
    | none => ents
    | some _ =>
        let res2 := get_entity ents r.uid r.name
        dictModify res2.1 euid (fun e => { e with attributes := some res2.2 })
  parseRecord ps ents r

/-- `SatLoader.load_entities`. -/
def sat_load_entities (ps : ParseSpec) : List RawRecord → Entities →
    Except LoadError Entities
  | [], ents => .ok ents
  | r :: rs, ents =>
      match sat_process_record ps ents r with
      | .error e => .error e
      | .ok ents' => sat_load_entities ps rs ents'

/-- Modelled from the spec: `sab.parse_sab` (not in the sources here) parses a
binary stream into a builder holding a header (with `version`) and the raw
records; we model its output directly. -/
structure SabData where
  version : Nat
  records : List RawRecord
deriving DecidableEq, Repr

/-- Modelled from the spec: `sat.parse_sat` (not in the sources here) parses a
text stream into a builder with a versioned header and the raw records. -/
structure SatData where
  version : Nat
  records : List RawRecord
deriving DecidableEq, Repr

/-- `SabLoader.load(data)`: build the loader, run `load_entities`, return
`bodies()`. -/
def sab_load (ps : ParseSpec) (d : SabData) : Except LoadError (List AcisEntity) :=
  match sab_load_entities ps d.records [] with
  | .error e => .error e
  | .ok ents => .ok (bodies ents)

/-- `SatLoader.load(data)`. -/
def sat_load (ps : ParseSpec) (d : SatData) : Except LoadError (List AcisEntity) :=
  match sat_load_entities ps d.records [] with
  | .error e => .error e
  | .ok ents => .ok (bodies ents)

/-- The runtime type of the argument of `load`: a byte sequence (`bytes` or
`bytearray`), a character string, or any other Python type (carrying its type
name for the error message). -/
inductive InputData where
  | bytes : SabData → InputData
  | str : SatData → InputData
  | other : String → InputData

/-- Top-level `load(data)`: dispatch on the runtime type of the input, raising
`TypeError` for anything that is neither a byte sequence nor a string. -/
def load (ps : ParseSpec) (d : InputData) : Except LoadError (List AcisEntity) :=
  match d with
  | .bytes b => sab_load ps b
  | .str s => sat_load ps s
  | .other t => .error (.typeError ("invalid type of data: " ++ t))

/-! ### Dictionary lemmas -/

theorem dictLookup_append_of_some {κ α : Type} [DecidableEq κ] :
    ∀ {m : List (κ × α)} (l : List (κ × α)) {k : κ} {e : α},
      dictLookup m k = some e → dictLookup (m ++ l) k = some e
  | [], _, _, _, h => by simp [dictLookup] at h
  | (k1, v1) :: rest, l, k, e, h => by
      by_cases hk : k = k1
      · simpa [dictLookup, hk] using h
      · simp only [dictLookup, hk, if_false, List.cons_append] at h ⊢
        exact dictLookup_append_of_some l h

theorem dictLookup_append_of_none {κ α : Type} [DecidableEq κ] :
    ∀ {m : List (κ × α)} (l : List (κ × α)) {k : κ},
      dictLookup m k = none → dictLookup (m ++ l) k = dictLookup l k
  | [], _, _, _ => rfl
  | (k1, v1) :: rest, l, k, h => by
      by_cases hk : k = k1
      · simp [dictLookup, hk] at h
      · simp only [dictLookup, hk, if_false, List.cons_append] at h ⊢
        exact dictLookup_append_of_none l h

theorem dictLookup_cons {κ α : Type} [DecidableEq κ] (k1 : κ) (v1 : α)
    (rest : List (κ × α)) (k' : κ) :
    dictLookup ((k1, v1) :: rest) k' =
      if k' = k1 then some v1 else dictLookup rest k' := rfl

theorem dictModify_cons {κ α : Type} [DecidableEq κ] (k1 : κ) (v1 : α)
    (rest : List (κ × α)) (k : κ) (f : α → α) :
    dictModify ((k1, v1) :: rest) k f =
      (if k1 = k then (k1, f v1) else (k1, v1)) :: dictModify rest k f := by
  by_cases h : k1 = k <;> simp [dictModify, h]

theorem dictLookup_modify {κ α : Type} [DecidableEq κ] :
    ∀ (m : List (κ × α)) (k k' : κ) (f : α → α),
      dictLookup (dictModify m k f) k' =
        if k' = k then (dictLookup m k').map f else dictLookup m k'
  | [], k, k', f => by simp [dictLookup, dictModify]
  | (k1, v1) :: rest, k, k', f => by
      have ih := dictLookup_modify rest k k' f
      rw [dictModify_cons]
      by_cases h1 : k1 = k
      · subst h1
        rw [if_pos rfl]
        by_cases h2 : k' = k1
        · subst h2
          simp [dictLookup_cons]
        · simp [dictLookup_cons, h2, ih]
      · rw [if_neg h1]
        by_cases h2 : k' = k1
        · subst h2
          simp [dictLookup_cons, h1]
        · simp [dictLookup_cons, h2, ih]

theorem dictLookup_none_keys {κ α : Type} [DecidableEq κ] :
    ∀ {m : List (κ × α)} {k : κ}, dictLookup m k = none →
      ∀ p ∈ m, p.1 ≠ k
  | [], _, _, _, hp => by simp at hp
  | (k1, v1) :: rest, k, h, p, hp => by
      by_cases hk : k = k1
      · simp [dictLookup, hk] at h
      · simp only [dictLookup, hk, if_false] at h
        rcases List.mem_cons.mp hp with h1 | h1
        · rw [h1]; simpa [eq_comm] using hk
        · exact dictLookup_none_keys h p h1

/-! ### `get_entity` lemmas -/

/-- The factory always returns the reference it was asked for. -/
theorem get_entity_snd (ents : Entities) (uid : Nat) (t : String) :
    (get_entity ents uid t).2 = uid := by
  unfold get_entity
  cases h : dictLookup ents uid <;> simp [h]

/-- A cached node: the factory neither changes the heap nor the node. -/
theorem get_entity_cached {ents : Entities} {uid : Nat} {e : AcisEntity}
    (t : String) (h : dictLookup ents uid = some e) :
    get_entity ents uid t = (ents, uid) := by
  unfold get_entity
  simp [h]

/-- A fresh node: the factory appends a newly constructed node of the class
the registry gives for the name (the base class when unregistered). -/
theorem get_entity_new {ents : Entities} {uid : Nat} (t : String)
    (h : dictLookup ents uid = none) :
    get_entity ents uid t =
      (ents ++ [(uid, mkEntity ((dictLookup ENTITY_TYPES t).getD AcisEntityClass))],
       uid) := by
  unfold get_entity
  simp [h]

/-- The factory never disturbs an existing heap entry. -/
theorem get_entity_preserve {ents : Entities} {k : Nat} {e : AcisEntity}
    (uid : Nat) (t : String) (h : dictLookup ents k = some e) :
    dictLookup (get_entity ents uid t).1 k = some e := by
  unfold get_entity
  cases hl : dictLookup ents uid with
  | some e' => simpa using h
  | none => simpa using dictLookup_append_of_some _ h

/-- Any entry of the heap after a factory call was already there, or is a
freshly constructed node (numeric id unset, no attributes link). -/
theorem get_entity_fresh {ents : Entities} {uid k : Nat} {t : String}
    {e : AcisEntity}
    (h : dictLookup (get_entity ents uid t).1 k = some e) :
    dictLookup ents k = some e ∨ (e.id = none ∧ e.attributes = none) := by
  unfold get_entity at h
  cases hl : dictLookup ents uid with
  | some e' =>
      rw [hl] at h
      exact Or.inl h
  | none =>
      rw [hl] at h
      simp only at h
      cases hk : dictLookup ents k with
      | some e0 =>
          rw [dictLookup_append_of_some _ hk] at h
          exact Or.inl h
      | none =>
          rw [dictLookup_append_of_none _ hk] at h
          by_cases hku : k = uid
          · rw [dictLookup_cons, if_pos hku] at h
            cases h
            exact Or.inr ⟨rfl, rfl⟩
          · rw [dictLookup_cons, if_neg hku] at h
            simp [dictLookup] at h

/-- The factory keeps every present key present. -/
theorem get_entity_pres {ents : Entities} {k : Nat} (uid : Nat) (t : String)
    (h : (dictLookup ents k).isSome) :
    (dictLookup (get_entity ents uid t).1 k).isSome := by
  cases hk : dictLookup ents k with
  | none => rw [hk] at h; simp at h
  | some e => rw [get_entity_preserve uid t hk]; rfl

/-- After a factory call the requested key is present. -/
theorem get_entity_pres_self (ents : Entities) (uid : Nat) (t : String) :
    (dictLookup (get_entity ents uid t).1 uid).isSome := by
  cases hl : dictLookup ents uid with
  | some e => rw [get_entity_cached t hl]; simp [hl]
  | none =>
      rw [get_entity_new t hl]
      simp only
      rw [dictLookup_append_of_none _ hl, dictLookup_cons, if_pos rfl]
      rfl

/-! ### Parse-step and per-record lemmas -/

/-- The reference-resolution fold of a parse step. -/
def refsFold (l : List (Nat × String)) (ents : Entities) : Entities :=
  l.foldl (fun es p => (get_entity es p.1 p.2).1) ents

theorem parseRecord_ok {ps : ParseSpec} {ents ents' : Entities} {r : RawRecord}
    (h : parseRecord ps ents r = .ok ents') :
    ps.fails r = none ∧ ents' = refsFold (ps.refs r) ents := by
  unfold parseRecord at h
  cases hf : ps.fails r with
  | some msg => rw [hf] at h; cases h
  | none => rw [hf] at h; cases h; exact ⟨rfl, rfl⟩

theorem parseRecord_fails {ps : ParseSpec} {r : RawRecord} {msg : String}
    (ents : Entities) (h : ps.fails r = some msg) :
    parseRecord ps ents r = .error (.formatError msg) := by
  unfold parseRecord
  rw [h]

theorem parseRecord_ok_of_no_fail {ps : ParseSpec} {r : RawRecord}
    (ents : Entities) (h : ps.fails r = none) :
    parseRecord ps ents r = .ok (refsFold (ps.refs r) ents) := by
  unfold parseRecord
  rw [h]
  rfl

theorem refsFold_preserve :
    ∀ (l : List (Nat × String)) {ents : Entities} {k : Nat} {e : AcisEntity},
      dictLookup ents k = some e → dictLookup (refsFold l ents) k = some e
  | [], _, _, _, h => h
  | p :: l, ents, k, e, h =>
      refsFold_preserve l (get_entity_preserve p.1 p.2 h)

theorem refsFold_fresh :
    ∀ (l : List (Nat × String)) {ents : Entities} {k : Nat} {e : AcisEntity},
      dictLookup (refsFold l ents) k = some e →
      dictLookup ents k = some e ∨ (e.id = none ∧ e.attributes = none)
  | [], _, _, _, h => Or.inl h
  | p :: l, ents, k, e, h => by
      rcases refsFold_fresh l h with h1 | h1
      · exact get_entity_fresh h1
      · exact Or.inr h1

theorem refsFold_pres :
    ∀ (l : List (Nat × String)) {ents : Entities} {k : Nat},
      (dictLookup ents k).isSome → (dictLookup (refsFold l ents) k).isSome
  | [], _, _, h => h
  | p :: l, ents, k, h => refsFold_pres l (get_entity_pres p.1 p.2 h)

/-- `sab_process_record` written with the factory's return value resolved
(the factory hands back the key it is called with). -/
theorem sab_process_record_eq (ps : ParseSpec) (ents : Entities) (r : RawRecord) :
    sab_process_record ps ents r =
      parseRecord ps
        (match r.attr with
         | none =>
             dictModify (get_entity ents r.uid r.name).1 r.uid
               (fun e => { e with id := some r.num_id })
         | some _ =>
             dictModify
               (get_entity
                 (dictModify (get_entity ents r.uid r.name).1 r.uid
                   (fun e => { e with id := some r.num_id })) r.uid r.name).1
               r.uid (fun e => { e with attributes := some r.uid })) r := by
  unfold sab_process_record
  simp only [get_entity_snd]

/-- Any heap entry after processing one record, other than the record's own
node, was already present unchanged or is freshly constructed (id unset, no
attributes link). -/
theorem sab_process_record_other {ps : ParseSpec} {ents ents' : Entities}
    {r : RawRecord} {k : Nat} {e : AcisEntity} (hk : k ≠ r.uid)
    (h : sab_process_record ps ents r = .ok ents')
    (he : dictLookup ents' k = some e) :
    dictLookup ents k = some e ∨ (e.id = none ∧ e.attributes = none) := by
  rw [sab_process_record_eq] at h
  rcases parseRecord_ok h with ⟨-, rfl⟩
  rcases refsFold_fresh _ he with h1 | h1
  · cases ha : r.attr with
    | none =>
        rw [ha] at h1
        rw [dictLookup_modify, if_neg hk] at h1
        exact get_entity_fresh h1
    | some a =>
        rw [ha] at h1
        rw [dictLookup_modify, if_neg hk] at h1
        rcases get_entity_fresh h1 with h2 | h2
        · rw [dictLookup_modify, if_neg hk] at h2
          exact get_entity_fresh h2
        · exact Or.inr h2
  · exact Or.inr h1

/-- Processing a record keeps every present key present. -/
theorem sab_process_record_pres {ps : ParseSpec} {ents ents' : Entities}
    {r : RawRecord} {k : Nat}
    (h : sab_process_record ps ents r = .ok ents')
    (hp : (dictLookup ents k).isSome) :
    (dictLookup ents' k).isSome := by
  rw [sab_process_record_eq] at h
  rcases parseRecord_ok h with ⟨-, rfl⟩
  apply refsFold_pres
  cases ha : r.attr with
  | none =>
      simp only
      rw [dictLookup_modify]
      rcases hs : dictLookup ents k with - | e
      · rw [hs] at hp; simp at hp
      · have := get_entity_preserve r.uid r.name hs
        rw [this]
        by_cases hk : k = r.uid <;> simp [hk]
  | some a =>
      simp only
      rw [dictLookup_modify]
      have h1 : (dictLookup (get_entity ents r.uid r.name).1 k).isSome :=
        get_entity_pres r.uid r.name hp
      have h2 : (dictLookup
          (dictModify (get_entity ents r.uid r.name).1 r.uid
            (fun e => { e with id := some r.num_id })) k).isSome := by
        rw [dictLookup_modify]
        by_cases hk : k = r.uid
        · rw [if_pos hk]
          rcases hs : dictLookup (get_entity ents r.uid r.name).1 k with - | e
          · rw [hs] at h1; simp at h1
          · rfl
        · rw [if_neg hk]; exact h1
      have h3 := get_entity_pres r.uid r.name h2
      rcases hs : dictLookup (get_entity
          (dictModify (get_entity ents r.uid r.name).1 r.uid
            (fun e => { e with id := some r.num_id })) r.uid r.name).1 k with - | e
      · rw [hs] at h3; simp at h3
      · by_cases hk : k = r.uid <;> simp [hk, hs]

/-- After processing a record, the record's own node is present in the heap. -/
theorem sab_process_record_pres_self {ps : ParseSpec} {ents ents' : Entities}
    {r : RawRecord} (h : sab_process_record ps ents r = .ok ents') :
    (dictLookup ents' r.uid).isSome := by
  rw [sab_process_record_eq] at h
  rcases parseRecord_ok h with ⟨-, rfl⟩
  apply refsFold_pres
  cases ha : r.attr with
  | none =>
      simp only
      rw [dictLookup_modify, if_pos rfl]
      have h1 := get_entity_pres_self ents r.uid r.name
      rcases hs : dictLookup (get_entity ents r.uid r.name).1 r.uid with - | e
      · rw [hs] at h1; simp at h1
      · rfl
  | some a =>
      simp only
      rw [dictLookup_modify, if_pos rfl]
      have h1 := get_entity_pres_self
        (dictModify (get_entity ents r.uid r.name).1 r.uid
          (fun e => { e with id := some r.num_id })) r.uid r.name
      rcases hs : dictLookup (get_entity
          (dictModify (get_entity ents r.uid r.name).1 r.uid
            (fun e => { e with id := some r.num_id })) r.uid r.name).1 r.uid with - | e
      · rw [hs] at h1; simp at h1
      · rfl

/-! ### Loader-level lemmas -/

theorem sab_load_entities_append (ps : ParseSpec) :
    ∀ (l1 l2 : List RawRecord) (ents : Entities),
      sab_load_entities ps (l1 ++ l2) ents =
        match sab_load_entities ps l1 ents with
        | .error e => .error e
        | .ok m => sab_load_entities ps l2 m
  | [], l2, ents => rfl
  | r :: l1, l2, ents => by
      rw [List.cons_append]
      cases h : sab_process_record ps ents r with
      | error e => simp [sab_load_entities, h]
      | ok m => simp [sab_load_entities, h, sab_load_entities_append ps l1 l2 m]

/-- A key whose record identity never occurs in the processed records: its
heap entry after the load was already there or is a freshly constructed
node (id unset, no attributes link). -/
theorem sab_load_entities_other {ps : ParseSpec} :
    ∀ {rs : List RawRecord} {ents ents' : Entities} {k : Nat} {e : AcisEntity},
      sab_load_entities ps rs ents = .ok ents' →
      (∀ r ∈ rs, r.uid ≠ k) →
      dictLookup ents' k = some e →
      dictLookup ents k = some e ∨ (e.id = none ∧ e.attributes = none)
  | [], _, _, _, _, h, _, he => by cases h; exact Or.inl he
  | r :: rs, ents, ents', k, e, h, hr, he => by
      unfold sab_load_entities at h
      cases hpr : sab_process_record ps ents r with
      | error err => rw [hpr] at h; cases h
      | ok m =>
          rw [hpr] at h
          rcases sab_load_entities_other h
              (fun r' hm => hr r' (List.mem_cons_of_mem _ hm)) he with h1 | h1
          · exact sab_process_record_other
              (Ne.symm (hr r (List.mem_cons_self r rs))) hpr h1
          · exact Or.inr h1

theorem sab_load_entities_pres {ps : ParseSpec} :
    ∀ {rs : List RawRecord} {ents ents' : Entities} {k : Nat},
      sab_load_entities ps rs ents = .ok ents' →
      (dictLookup ents k).isSome → (dictLookup ents' k).isSome
  | [], _, _, _, h, hp => by cases h; exact hp
  | r :: rs, ents, ents', k, h, hp => by
      unfold sab_load_entities at h
      cases hpr : sab_process_record ps ents r with
      | error e => rw [hpr] at h; cases h
      | ok m =>
          rw [hpr] at h
          exact sab_load_entities_pres h (sab_process_record_pres hpr hp)

/-! ### The `attributes` link stays absent -/

/-- The node stored under key `k` (if any) has no `attributes` link. -/
def attrsNoneAt (ents : Entities) (k : Nat) : Prop :=
  ∀ e, dictLookup ents k = some e → e.attributes = none

theorem attrsNoneAt_get_entity {ents : Entities} {k : Nat} (uid : Nat)
    (t : String) (h : attrsNoneAt ents k) :
    attrsNoneAt (get_entity ents uid t).1 k := by
  intro e he
  rcases get_entity_fresh he with h1 | h1
  · exact h e h1
  · exact h1.2

theorem attrsNoneAt_refsFold :
    ∀ (l : List (Nat × String)) {ents : Entities} {k : Nat},
      attrsNoneAt ents k → attrsNoneAt (refsFold l ents) k := by
  intro l ents k h e he
  rcases refsFold_fresh l he with h1 | h1
  · exact h e h1
  · exact h1.2

theorem attrsNoneAt_modify_id {ents : Entities} {k : Nat} (u : Nat) (v : Int)
    (h : attrsNoneAt ents k) :
    attrsNoneAt (dictModify ents u (fun e => { e with id := some v })) k := by
  intro e he
  rw [dictLookup_modify] at he
  by_cases hk : k = u
  · rw [if_pos hk] at he
    cases hs : dictLookup ents k with
    | none => rw [hs] at he; cases he
    | some e0 =>
        rw [hs] at he
        cases he
        exact h e0 hs
  · rw [if_neg hk] at he
    exact h e he

theorem attrsNoneAt_modify_other {ents : Entities} {k u : Nat}
    (f : AcisEntity → AcisEntity) (hk : k ≠ u) (h : attrsNoneAt ents k) :
    attrsNoneAt (dictModify ents u f) k := by
  intro e he
  rw [dictLookup_modify, if_neg hk] at he
  exact h e he

/-- Processing a record whose attribute pointer is the null pointer — or any
record for a different identity — never sets the `attributes` link at `k`. -/
theorem sab_process_record_attrsNone {ps : ParseSpec} {ents ents' : Entities}
    {r : RawRecord} {k : Nat}
    (hcase : r.uid ≠ k ∨ r.attr = none)
    (h : sab_process_record ps ents r = .ok ents')
    (ha : attrsNoneAt ents k) : attrsNoneAt ents' k := by
  rw [sab_process_record_eq] at h
  rcases parseRecord_ok h with ⟨-, rfl⟩
  apply attrsNoneAt_refsFold
  cases hat : r.attr with
  | none =>
      exact attrsNoneAt_modify_id r.uid r.num_id
        (attrsNoneAt_get_entity r.uid r.name ha)
  | some a =>
      have hne : r.uid ≠ k := by
        rcases hcase with h1 | h1
        · exact h1
        · rw [hat] at h1; cases h1
      exact attrsNoneAt_modify_other _ (Ne.symm hne)
        (attrsNoneAt_get_entity r.uid r.name
          (attrsNoneAt_modify_id r.uid r.num_id
            (attrsNoneAt_get_entity r.uid r.name ha)))

theorem sab_load_entities_attrsNone {ps : ParseSpec} :
    ∀ {rs : List RawRecord} {ents ents' : Entities} {k : Nat},
      sab_load_entities ps rs ents = .ok ents' →
      (∀ r ∈ rs, r.uid = k → r.attr = none) →
      attrsNoneAt ents k → attrsNoneAt ents' k
  | [], _, _, _, h, _, ha => by cases h; exact ha
  | r :: rs, ents, ents', k, h, hc, ha => by
      unfold sab_load_entities at h
      cases hpr : sab_process_record ps ents r with
      | error err => rw [hpr] at h; cases h
      | ok m =>
          rw [hpr] at h
          have hcase : r.uid ≠ k ∨ r.attr = none := by
            by_cases hu : r.uid = k
            · exact Or.inr (hc r (List.mem_cons_self r rs) hu)
            · exact Or.inl hu
          exact sab_load_entities_attrsNone h
            (fun r' hm => hc r' (List.mem_cons_of_mem _ hm))
            (sab_process_record_attrsNone hcase hpr ha)

/-! ### `dictSet` lemmas for the registry -/

theorem dictSet_eq_modify {κ α : Type} [DecidableEq κ] (m : List (κ × α))
    (k : κ) (v : α) :
    dictSet m k v =
      if (dictLookup m k).isSome then dictModify m k (fun _ => v)
      else m ++ [(k, v)] := by
  unfold dictSet dictModify
  have hf : (fun (p : κ × α) => if p.1 = k then (k, v) else p) =
      (fun (p : κ × α) => if p.1 = k then (p.1, v) else p) := by
    funext p
    by_cases h : p.1 = k
    · simp [h]
    · simp [h]
  rw [hf]

theorem dictLookup_dictSet {κ α : Type} [DecidableEq κ] (m : List (κ × α))
    (k k' : κ) (v : α) :
    dictLookup (dictSet m k v) k' =
      if k' = k then some v else dictLookup m k' := by
  rw [dictSet_eq_modify]
  cases hs : dictLookup m k with
  | some w =>
      simp only [Option.isSome_some]
      rw [if_pos trivial, dictLookup_modify]
      by_cases hk : k' = k
      · rw [if_pos hk, if_pos hk, hk, hs]; rfl
      · rw [if_neg hk, if_neg hk]
  | none =>
      simp only [Option.isSome_none]
      rw [if_neg Bool.false_ne_true]
      by_cases hk : k' = k
      · subst hk
        rw [if_pos rfl, dictLookup_append_of_none _ hs, dictLookup_cons,
          if_pos rfl]
      · rw [if_neg hk]
        cases hm : dictLookup m k' with
        | some w => rw [dictLookup_append_of_some _ hm]
        | none =>
            rw [dictLookup_append_of_none _ hm, dictLookup_cons, if_neg hk]
            rfl

theorem dictSet_idem {κ α : Type} [DecidableEq κ] (m : List (κ × α))
    (k : κ) (v : α) :
    dictSet (dictSet m k v) k v = dictSet m k v := by
  have hsome : (dictLookup (dictSet m k v) k).isSome := by
    rw [dictLookup_dictSet, if_pos rfl]; rfl
  rw [dictSet_eq_modify (dictSet m k v), if_pos hsome]
  unfold dictSet dictModify
  cases hs : (dictLookup m k).isSome with
  | true =>
      rw [if_pos rfl, List.map_map]
      apply List.map_congr_left
      intro p _
      by_cases h : p.1 = k
      · simp [Function.comp, h]
      · simp [Function.comp, h]
  | false =>
      rw [if_neg Bool.false_ne_true, List.map_append]
      have hid : m.map (fun p => if p.1 = k then (p.1, v) else p) = m := by
        conv_rhs => rw [← List.map_id m]
        apply List.map_congr_left
        intro p hp
        have : p.1 ≠ k := by
          apply dictLookup_none_keys _ p hp
          cases hl : dictLookup m k with
          | none => rfl
          | some w => rw [hl] at hs; cases hs
        simp [this]
      rw [hid]
      simp

/-! ### Claim theorems -/

/-- C4: `load` dispatches purely on the runtime type of its input: byte
sequences go to the SAB loader, strings to the SAT loader, and any other
type raises a `TypeError` immediately, with no parsing attempted and no
partial result ever produced. -/
theorem load_dispatches_on_input_type (ps : ParseSpec) (b : SabData)
    (s : SatData) (t : String) :
    load ps (.bytes b) = sab_load ps b ∧
    load ps (.str s) = sat_load ps s ∧
    load ps (.other t) = .error (.typeError ("invalid type of data: " ++ t)) ∧
    ∀ result, load ps (.other t) ≠ .ok result := by
  refine ⟨rfl, rfl, rfl, ?_⟩
  intro result h
  cases h

/-- C9: `register` is an idempotent overwrite on the registry: registering a
second class under the same type name raises no error and replaces the prior
entry — construction for that name then uses the newer class — and
registering the same class twice equals registering it once. -/
theorem register_idempotent_overwrite (reg : Registry) (c1 c2 : EntityClass)
    (nm : String) (h1 : c1.type = nm) (h2 : c2.type = nm) :
    dictLookup (register (register reg c1) c2) nm = some c2 ∧
    mkEntity ((dictLookup (register (register reg c1) c2) nm).getD
      AcisEntityClass) = mkEntity c2 ∧
    register (register reg c2) c2 = register reg c2 := by
  have hl : dictLookup (register (register reg c1) c2) nm = some c2 := by
    unfold register
    rw [dictLookup_dictSet, h2, if_pos rfl]
  refine ⟨hl, by rw [hl]; rfl, ?_⟩
  unfold register
  exact dictSet_idem reg c2.type c2

/-- Witness for C9 at concrete classes. -/
theorem register_idempotent_overwrite_witness :
    dictLookup (register (register [] ⟨"pt", false⟩) ⟨"pt", true⟩) "pt" =
      some ⟨"pt", true⟩ ∧
    register (register [] (⟨"pt", true⟩ : EntityClass)) ⟨"pt", true⟩ =
      register [] ⟨"pt", true⟩ := by
  have h := register_idempotent_overwrite [] ⟨"pt", false⟩ ⟨"pt", true⟩ "pt"
    rfl rfl
  exact ⟨h.1, h.2.2⟩

/-- A record whose field parse succeeds is processed without error. -/
theorem sab_process_record_ok_of_no_fail (ps : ParseSpec) (ents : Entities)
    (r : RawRecord) (h : ps.fails r = none) :
    ∃ m, sab_process_record ps ents r = .ok m := by
  rw [sab_process_record_eq]
  exact ⟨_, parseRecord_ok_of_no_fail _ h⟩

/-- A stream whose field parses all succeed loads without error, whatever the
records' type names are. -/
theorem sab_load_entities_ok_of_no_fail (ps : ParseSpec) :
    ∀ (rs : List RawRecord) (ents : Entities),
      (∀ r ∈ rs, ps.fails r = none) →
      ∃ m, sab_load_entities ps rs ents = .ok m
  | [], ents, _ => ⟨ents, rfl⟩
  | r :: rs, ents, h => by
      rcases sab_process_record_ok_of_no_fail ps ents r
          (h r (List.mem_cons_self r rs)) with ⟨m, hm⟩
      rcases sab_load_entities_ok_of_no_fail ps rs m
          (fun r' h' => h r' (List.mem_cons_of_mem _ h')) with ⟨m', hm'⟩
      refine ⟨m', ?_⟩
      unfold sab_load_entities
      rw [hm]
      exact hm'

/-- C3: within one load, `get_entity` memoizes by record identity: a cached
identity is returned as the very same node with the heap untouched; a fresh
identity is constructed via the registry, cached, and any later call — with
any type name — returns the heap unchanged with the same reference; and the
heap never acquires a duplicate entry for an identity (keys stay distinct, so
every record identity has at most one in-memory node). -/
theorem get_entity_memoizes (ents : Entities) (uid : Nat) (t t' : String) :
    (∀ e, dictLookup ents uid = some e →
      get_entity ents uid t' = (ents, uid)) ∧
    (dictLookup ents uid = none →
      dictLookup (get_entity ents uid t).1 uid =
        some (mkEntity ((dictLookup ENTITY_TYPES t).getD AcisEntityClass)) ∧
      get_entity (get_entity ents uid t).1 uid t' =
        ((get_entity ents uid t).1, uid)) ∧
    ((ents.map Prod.fst).Nodup →
      (((get_entity ents uid t).1).map Prod.fst).Nodup) := by
  refine ⟨fun e he => get_entity_cached t' he, fun hn => ?_, fun hd => ?_⟩
  · have hl : dictLookup (get_entity ents uid t).1 uid =
        some (mkEntity ((dictLookup ENTITY_TYPES t).getD AcisEntityClass)) := by
      rw [get_entity_new t hn]
      simp only
      rw [dictLookup_append_of_none _ hn, dictLookup_cons, if_pos rfl]
    exact ⟨hl, get_entity_cached t' hl⟩
  · cases hl : dictLookup ents uid with
    | some e => rw [get_entity_cached t hl]; exact hd
    | none =>
        rw [get_entity_new t hl]
        simp only [List.map_append, List.map_cons, List.map_nil]
        rw [List.nodup_append]
        refine ⟨hd, List.nodup_singleton uid, ?_⟩
        intro a ha hb
        rcases List.mem_singleton.mp hb with rfl
        rcases List.mem_map.mp ha with ⟨p, hp, hp1⟩
        exact dictLookup_none_keys hl p hp hp1

/-- Witness for C3: first call on an empty heap caches a node; the second
call returns the heap unchanged with the same reference. -/
theorem get_entity_memoizes_witness :
    dictLookup ([] : Entities) 1 = none ∧
    dictLookup (get_entity ([] : Entities) 1 "body").1 1 =
      some (mkEntity ((dictLookup ENTITY_TYPES "body").getD AcisEntityClass)) ∧
    get_entity (get_entity ([] : Entities) 1 "body").1 1 "body" =
      ((get_entity ([] : Entities) 1 "body").1, 1) :=
  ⟨rfl, (get_entity_memoizes [] 1 "body" "body").2.1 rfl⟩

/-- C1 counter-evidence: the loader attaches the record's *own* node as its
`attributes` link.  On a stream where record `1` has a non-null attribute
pointer to record `2`, the node loaded for identity `1` gets
`attributes = some 1` — a self-reference — although the referenced record's
identity is `2`: the code passes `id(sab_entity), sab_entity.name` to the
factory instead of `id(attributes), attributes.name`, fetching the attribute
record and then never using it beyond the null-pointer check. -/
theorem attributes_attached_to_own_node_not_referenced :
    sab_load_entities trivialParse
        [⟨1, 5, "body", some (2, "body"), []⟩, ⟨2, 6, "body", none, []⟩] [] =
      .ok [(1, ⟨"body", true, some 5, some 1⟩),
           (2, ⟨"body", true, some 6, none⟩)] ∧
    (some 1 : Option Nat) ≠ some 2 :=
  ⟨rfl, by decide⟩

/-- C2 counterexample: for a record whose type name `"foo"` is not in the
registry, the loaded node's type name is the base class's
`"unsupported-entity"`, not the record's given type name. -/
theorem unregistered_type_name_not_preserved :
    dictLookup ENTITY_TYPES "foo" = none ∧
    sab_load_entities trivialParse [⟨3, 7, "foo", none, []⟩] [] =
      .ok [(3, ⟨"unsupported-entity", false, some 7, none⟩)] ∧
    ("unsupported-entity" : String) ≠ "foo" :=
  ⟨rfl, rfl, by decide⟩

/-- C2 (amended): loading a record with an unregistered type name does not
raise — any stream whose field parses succeed loads to completion — the node
materialized for such a record is a generic placeholder of the base class
(`type = "unsupported-entity"`, not a `Body`, no specialized fields: numeric
id and attributes start unset), and such a placeholder never adds to the
`bodies` a load returns. -/
theorem unregistered_record_loads_as_generic_placeholder
    (ps : ParseSpec) (rs : List RawRecord) (ents : Entities) (uid : Nat)
    (nm : String) :
    ((∀ r ∈ rs, ps.fails r = none) →
      ∃ m, sab_load_entities ps rs ents = .ok m) ∧
    (dictLookup ENTITY_TYPES nm = none → dictLookup ents uid = none →
      (get_entity ents uid nm).1 = ents ++ [(uid, mkEntity AcisEntityClass)] ∧
      (mkEntity AcisEntityClass).type = "unsupported-entity" ∧
      (mkEntity AcisEntityClass).isBody = false ∧
      (mkEntity AcisEntityClass).id = none ∧
      (mkEntity AcisEntityClass).attributes = none) ∧
    (∀ m : Entities, bodies (m ++ [(uid, mkEntity AcisEntityClass)]) = bodies m) := by
  refine ⟨fun h => sab_load_entities_ok_of_no_fail ps rs ents h,
    fun hreg hent => ?_, fun m => ?_⟩
  · rw [get_entity_new nm hent, hreg]
    exact ⟨rfl, rfl, rfl, rfl, rfl⟩
  · unfold bodies
    rw [List.map_append, List.filter_append]
    simp [mkEntity, AcisEntityClass]

/-- Witness for C2 (amended) on a concrete one-record stream. -/
theorem unregistered_record_loads_witness :
    (get_entity [] 3 "foo").1 = [] ++ [(3, mkEntity AcisEntityClass)] ∧
    sab_load_entities trivialParse [⟨3, 7, "foo", none, []⟩] [] =
      .ok [(3, ⟨"unsupported-entity", false, some 7, none⟩)] := by
  have h := unregistered_record_loads_as_generic_placeholder trivialParse
    [⟨3, 7, "foo", none, []⟩] [] 3 "foo"
  obtain ⟨m, hm⟩ := h.1 (fun r _ => rfl)
  have h2 : (Except.ok
      [(3, (⟨"unsupported-entity", false, some 7, none⟩ : AcisEntity))] :
      Except LoadError Entities) = .ok m := hm
  injection h2 with h3
  subst h3
  exact ⟨(h.2.1 rfl rfl).1, hm⟩

/-- C6: when a load completes, it returns exactly the materialized nodes
whose runtime type is `Body` — every Body node appears, no non-Body node
appears — in the insertion order of the node map, and the result is a
deterministic function of the record stream. -/
theorem bodies_exactly_the_body_nodes (ps : ParseSpec) (d : SabData)
    (bs : List AcisEntity) (h : sab_load ps d = .ok bs) :
    ∃ ents, sab_load_entities ps d.records [] = .ok ents ∧
      bs = bodies ents ∧
      bs.Sublist (ents.map Prod.snd) ∧
      (∀ e, e ∈ bs ↔ (e ∈ ents.map Prod.snd ∧ e.isBody = true)) ∧
      (∀ bs', sab_load ps d = .ok bs' → bs' = bs) := by
  unfold sab_load at h
  cases hl : sab_load_entities ps d.records [] with
  | error err => rw [hl] at h; cases h
  | ok ents =>
      rw [hl] at h
      cases h
      refine ⟨ents, rfl, rfl, List.filter_sublist _, fun e => ?_, fun bs' h' => ?_⟩
      · constructor
        · intro he
          have hm := List.mem_filter.mp he
          exact ⟨hm.1, hm.2⟩
        · intro he
          exact List.mem_filter.mpr ⟨he.1, he.2⟩
      · unfold sab_load at h'
        rw [hl] at h'
        cases h'
        rfl

/-- Witness for C6 on a two-record stream with one Body and one
unregistered record. -/
theorem bodies_exactly_the_body_nodes_witness :
    sab_load trivialParse
        ⟨7, [⟨1, 5, "body", none, []⟩, ⟨3, 7, "foo", none, []⟩]⟩ =
      .ok [⟨"body", true, some 5, none⟩] ∧
    [(⟨"body", true, some 5, none⟩ : AcisEntity)] =
      bodies [(1, ⟨"body", true, some 5, none⟩),
              (3, ⟨"unsupported-entity", false, some 7, none⟩)] := by
  obtain ⟨ents, hents, hbs, -, -, -⟩ := bodies_exactly_the_body_nodes
    trivialParse ⟨7, [⟨1, 5, "body", none, []⟩, ⟨3, 7, "foo", none, []⟩]⟩
    [⟨"body", true, some 5, none⟩] rfl
  have h2 : (Except.ok [(1, (⟨"body", true, some 5, none⟩ : AcisEntity)),
      (3, (⟨"unsupported-entity", false, some 7, none⟩ : AcisEntity))] :
      Except LoadError Entities) = .ok ents := hents
  injection h2 with h3
  subst h3
  exact ⟨rfl, hbs⟩

/-- The SAB and SAT per-record steps are the same function (the source
duplicates the loop body verbatim). -/
theorem sab_sat_process_eq (ps : ParseSpec) (ents : Entities) (r : RawRecord) :
    sab_process_record ps ents r = sat_process_record ps ents r := rfl

theorem sab_sat_load_entities_eq (ps : ParseSpec) :
    ∀ (rs : List RawRecord) (ents : Entities),
      sab_load_entities ps rs ents = sat_load_entities ps rs ents
  | [], _ => rfl
  | r :: rs, ents => by
      unfold sab_load_entities sat_load_entities
      rw [← sab_sat_process_eq]
      cases sab_process_record ps ents r with
      | error e => rfl
      | ok m => exact sab_sat_load_entities_eq ps rs m

/-- C7: binary and text loads of streams with equivalent content (same
records — ids, type names, attribute pointers, field data — and version)
produce identical node maps, hence the same Body nodes, the same numeric
ids, and structurally identical attribute/reference graphs. -/
theorem sab_sat_loads_agree_on_equivalent_content (ps : ParseSpec)
    (bd : SabData) (td : SatData) (hv : bd.version = td.version)
    (hr : bd.records = td.records) :
    sab_load_entities ps bd.records [] = sat_load_entities ps td.records [] ∧
    sab_load ps bd = sat_load ps td := by
  constructor
  · rw [hr]
    exact sab_sat_load_entities_eq ps td.records []
  · unfold sab_load sat_load
    rw [hr, sab_sat_load_entities_eq ps td.records []]

/-- Witness for C7 on a concrete equivalent pair. -/
theorem sab_sat_loads_agree_witness :
    sab_load_entities trivialParse [⟨1, 5, "body", some (2, "body"), []⟩] [] =
      sat_load_entities trivialParse [⟨1, 5, "body", some (2, "body"), []⟩] [] ∧
    sab_load trivialParse ⟨7, [⟨1, 5, "body", some (2, "body"), []⟩]⟩ =
      sat_load trivialParse ⟨7, [⟨1, 5, "body", some (2, "body"), []⟩]⟩ :=
  sab_sat_loads_agree_on_equivalent_content trivialParse
    ⟨7, [⟨1, 5, "body", some (2, "body"), []⟩]⟩
    ⟨7, [⟨1, 5, "body", some (2, "body"), []⟩]⟩ rfl rfl

/-- C8: when a record's field parse raises a `FormatError`, the entire load
fails with exactly that error — for the binary and the text loader alike —
and no partial body list is ever returned. -/
theorem parse_failure_fails_whole_load (ps : ParseSpec) (v : Nat)
    (rs1 : List RawRecord) (r : RawRecord) (rs2 : List RawRecord)
    (ents : Entities) (msg : String)
    (h1 : sab_load_entities ps rs1 [] = .ok ents)
    (h2 : ps.fails r = some msg) :
    sab_load_entities ps (rs1 ++ r :: rs2) [] = .error (.formatError msg) ∧
    sab_load ps ⟨v, rs1 ++ r :: rs2⟩ = .error (.formatError msg) ∧
    sat_load ps ⟨v, rs1 ++ r :: rs2⟩ = .error (.formatError msg) ∧
    (∀ bs, sab_load ps ⟨v, rs1 ++ r :: rs2⟩ ≠ .ok bs) := by
  have hpr : sab_process_record ps ents r = .error (.formatError msg) := by
    rw [sab_process_record_eq]
    exact parseRecord_fails _ h2
  have hfull : sab_load_entities ps (rs1 ++ r :: rs2) [] =
      .error (.formatError msg) := by
    rw [sab_load_entities_append ps rs1 (r :: rs2) [], h1]
    unfold sab_load_entities
    rw [hpr]
  have hsab : sab_load ps ⟨v, rs1 ++ r :: rs2⟩ = .error (.formatError msg) := by
    unfold sab_load
    rw [show (⟨v, rs1 ++ r :: rs2⟩ : SabData).records = rs1 ++ r :: rs2 from rfl,
      hfull]
  have hsat : sat_load ps ⟨v, rs1 ++ r :: rs2⟩ = .error (.formatError msg) := by
    unfold sat_load
    rw [show (⟨v, rs1 ++ r :: rs2⟩ : SatData).records = rs1 ++ r :: rs2 from rfl,
      ← sab_sat_load_entities_eq ps (rs1 ++ r :: rs2) [], hfull]
  refine ⟨hfull, hsab, hsat, fun bs hok => ?_⟩
  rw [hsab] at hok
  cases hok

/-- Witness for C8: a well-formed record followed by a record whose field
stream is malformed. -/
theorem parse_failure_fails_whole_load_witness :
    sab_load_entities
        ⟨fun _ => [], fun r => if r.name = "bad" then some "truncated" else none⟩
        ([⟨1, 5, "body", none, []⟩] ++ ⟨4, 9, "bad", none, []⟩ :: []) [] =
      .error (.formatError "truncated") ∧
    sab_load
        ⟨fun _ => [], fun r => if r.name = "bad" then some "truncated" else none⟩
        ⟨7, [⟨1, 5, "body", none, []⟩] ++ ⟨4, 9, "bad", none, []⟩ :: []⟩ =
      .error (.formatError "truncated") := by
  have h := parse_failure_fails_whole_load
    ⟨fun _ => [], fun r => if r.name = "bad" then some "truncated" else none⟩ 7
    [⟨1, 5, "body", none, []⟩] ⟨4, 9, "bad", none, []⟩ []
    [(1, ⟨"body", true, some 5, none⟩)] "truncated" rfl rfl
  exact ⟨h.1, h.2.1⟩

/-- C5: a record whose attribute pointer is the null pointer — and whose
identity no other record of the stream reuses with a non-null pointer —
yields a materialized node whose `attributes` link is absent: the loader
performs no attachment for it and the field keeps its `None` default. -/
theorem null_attribute_pointer_yields_no_attributes
    (ps : ParseSpec) (rs : List RawRecord) (ents : Entities) (r : RawRecord)
    (h : sab_load_entities ps rs [] = .ok ents) (hr : r ∈ rs)
    (hu : ∀ r' ∈ rs, r'.uid = r.uid → r'.attr = none) :
    ∃ e, dictLookup ents r.uid = some e ∧ e.attributes = none := by
  rcases List.append_of_mem hr with ⟨l1, l2, rfl⟩
  rw [sab_load_entities_append ps l1 (r :: l2) []] at h
  cases h1 : sab_load_entities ps l1 [] with
  | error err => rw [h1] at h; cases h
  | ok m1 =>
      rw [h1] at h
      unfold sab_load_entities at h
      cases h2 : sab_process_record ps m1 r with
      | error err => rw [h2] at h; cases h
      | ok m2 =>
          rw [h2] at h
          have ha0 : attrsNoneAt [] r.uid := by
            intro e he
            simp [dictLookup] at he
          have ha1 : attrsNoneAt m1 r.uid :=
            sab_load_entities_attrsNone h1
              (fun r' hm h' => hu r' (List.mem_append_left _ hm) h') ha0
          have ha2 : attrsNoneAt m2 r.uid :=
            sab_process_record_attrsNone (Or.inr (hu r hr rfl)) h2 ha1
          have hp2 : (dictLookup m2 r.uid).isSome :=
            sab_process_record_pres_self h2
          have ha3 : attrsNoneAt ents r.uid :=
            sab_load_entities_attrsNone h
              (fun r' hm h' => hu r'
                (List.mem_append_right _ (List.mem_cons_of_mem _ hm)) h') ha2
          have hp3 : (dictLookup ents r.uid).isSome :=
            sab_load_entities_pres h hp2
          cases hl : dictLookup ents r.uid with
          | none => rw [hl] at hp3; simp at hp3
          | some e => exact ⟨e, rfl, ha3 e hl⟩

/-- Witness for C5 on a one-record stream with a null attribute pointer. -/
theorem null_attribute_pointer_witness :
    dictLookup [(2, (⟨"body", true, some 6, none⟩ : AcisEntity))] 2 =
      some ⟨"body", true, some 6, none⟩ ∧
    (⟨"body", true, some 6, none⟩ : AcisEntity).attributes = none := by
  obtain ⟨e, he, ha⟩ := null_attribute_pointer_yields_no_attributes trivialParse
    [⟨2, 6, "body", none, []⟩] [(2, ⟨"body", true, some 6, none⟩)]
    ⟨2, 6, "body", none, []⟩ rfl (by decide) (by decide)
  have h2 : some (⟨"body", true, some 6, none⟩ : AcisEntity) = some e := he
  injection h2 with h3
  subst h3
  exact ⟨he, ha⟩

/-- C10: a node that exists only because it was referenced — its identity is
resolved through the factory during some record's parse but never occurs as a
top-level record of the stream — ends the load with its numeric `id` unset:
the id is assigned only when the node's own record is processed. -/
theorem referenced_only_node_has_unset_id (ps : ParseSpec)
    (rs : List RawRecord) (ents : Entities) (k : Nat) (e : AcisEntity)
    (h : sab_load_entities ps rs [] = .ok ents)
    (hk : ∀ r ∈ rs, r.uid ≠ k)
    (he : dictLookup ents k = some e) :
    e.id = none := by
  rcases sab_load_entities_other h hk he with h1 | h1
  · simp [dictLookup] at h1
  · exact h1.1

/-- Witness for C10: a parse step resolves a reference to identity `9`, which
never occurs as a record; the node created for it has no numeric id. -/
theorem referenced_only_node_witness :
    dictLookup
        [(2, (⟨"body", true, some 6, none⟩ : AcisEntity)),
         (9, (⟨"unsupported-entity", false, none, none⟩ : AcisEntity))] 9 =
      some ⟨"unsupported-entity", false, none, none⟩ ∧
    (⟨"unsupported-entity", false, none, none⟩ : AcisEntity).id = none := by
  refine ⟨rfl, ?_⟩
  exact referenced_only_node_has_unset_id
    ⟨fun _ => [(9, "wire")], fun _ => none⟩
    [⟨2, 6, "body", none, []⟩]
    [(2, ⟨"body", true, some 6, none⟩),
     (9, ⟨"unsupported-entity", false, none, none⟩)]
    9 ⟨"unsupported-entity", false, none, none⟩ rfl (by decide) rfl

/-- Witness for C4: a non-bytes, non-string input fails with `TypeError`. -/
theorem load_dispatches_on_input_type_witness :
    load trivialParse (.other "int") =
      .error (.typeError ("invalid type of data: " ++ "int")) :=
  (load_dispatches_on_input_type trivialParse ⟨7, []⟩ ⟨7, []⟩ "int").2.2.1
